import Mathlib

set_option maxRecDepth 2000
set_option maxHeartbeats 2000000

/-!
Verification of the RAG code-generation core (chunker, completion client,
output validators, generation orchestrator) of the nlp-code-generator
repository.  Strings are modelled as `List Char`; JavaScript string
primitives (`trim`, `lastIndexOf`, `indexOf`, `substring`, regular-expression
tests) are embedded as executable Lean functions with JavaScript semantics.
-/

namespace NlpCodeGen

/-- The JavaScript `\s` / `trim` whitespace class (ASCII part plus NBSP and
BOM, which is all the source's inputs can contain). -/
def jsWhitespace (c : Char) : Bool :=
  c = ' ' || c = '\t' || c = '\n' || c = '\r' ||
  c.val = 11 || c.val = 12 || c.val = 160 || c.val = 65279

/-- The JavaScript `\w` word-character class `[A-Za-z0-9_]`, which also
defines the `\b` word boundary. -/
def wordChar (c : Char) : Bool :=
  (('a' ≤ c && c ≤ 'z') || ('A' ≤ c && c ≤ 'Z') || ('0' ≤ c && c ≤ '9') || c = '_')

/-- JavaScript `String.prototype.trim`. -/
def jsTrim (s : List Char) : List Char :=
  ((s.dropWhile jsWhitespace).reverse.dropWhile jsWhitespace).reverse

/-- Case-insensitive character comparison (`/i` regex flag). -/
def ciEq (a b : Char) : Bool := a.toLower = b.toLower

/-- Does `w` occur in `s` starting at position `i`, compared case-insensitively? -/
def ciMatchAt (s w : List Char) (i : Nat) : Bool :=
  (((s.drop i).take w.length).zip w).all (fun p => ciEq p.1 p.2) &&
    decide (i + w.length ≤ s.length)

/-- `\bw\b` at position `i`: the word matches case-insensitively and both ends
sit on a word boundary. -/
def wordMatchAt (s w : List Char) (i : Nat) : Bool :=
  ciMatchAt s w i &&
  (decide (i = 0) || !(wordChar (s.getD (i - 1) ' '))) &&
  (decide (i + w.length = s.length) || !(wordChar (s.getD (i + w.length) ' ')))

/-- `new RegExp("\\b" + w + "\\b", "i").test(s)` for a plain word `w`. -/
def containsWord (s w : List Char) : Bool :=
  (List.range (s.length + 1)).any (wordMatchAt s w)

/-- Does `s` contain two consecutive question marks (`/\?{2,}/.test`)? -/
def hasDoubleQuestion : List Char → Bool
  | [] => false
  | [_] => false
  | a :: b :: rest => (a = '?' && b = '?') || hasDoubleQuestion (b :: rest)

/-- Does `s` contain `sub` as a contiguous sublist (JS `indexOf(sub) !== -1`)? -/
def containsSub (s sub : List Char) : Bool :=
  (List.range (s.length + 1)).any (fun i => sub.isPrefixOf (s.drop i))

/-! ## Ambiguity heuristics (GenerationService.checkAmbiguityHeuristics / detectAmbiguity) -/

/-- Result shape of `detectAmbiguity` / `checkAmbiguityHeuristics`. -/
structure AmbiguityResult where
  isAmbiguous : Bool
  clarificationPrompt : Option String
  deriving DecidableEq, Repr

def tooShortPrompt : String :=
  "Your request is too short. Could you please provide more specific details about what you want to generate?"

def vaguePronounPrompt : String :=
  "Your request starts with a vague pronoun. Could you please specify what you are referring to?"

def uncertainPrompt : String :=
  "Your request seems uncertain. Could you please clarify exactly what you need?"

def moreDetailsPrompt : String :=
  "Could you please provide more specific details about what you want to generate? Include what data you need and any specific conditions."

/-- The vague-pronoun alternation of `/^(it|that|this|those|these)\b/i`. -/
def vaguePronouns : List (List Char) :=
  ["it".toList, "that".toList, "this".toList, "those".toList, "these".toList]

/-- `/^(it|that|this|those|these)\b/i.test(request.trim())`. -/
def startsWithVaguePronoun (request : List Char) : Bool :=
  vaguePronouns.any (fun p => wordMatchAt (jsTrim request) p 0)

/-- The action-word alternation of the source's
`/\b(get|find|list|show|display|create|generate|fetch|retrieve|select|query|search|filter|calculate|count|sum|average)\b/i`. -/
def actionWords : List (List Char) :=
  ["get".toList, "find".toList, "list".toList, "show".toList, "display".toList,
   "create".toList, "generate".toList, "fetch".toList, "retrieve".toList,
   "select".toList, "query".toList, "search".toList, "filter".toList,
   "calculate".toList, "count".toList, "sum".toList, "average".toList]

/-- `hasActionWord` in `checkAmbiguityHeuristics`: the action-word regex tested
against the raw request. -/
def hasActionWord (request : List Char) : Bool :=
  actionWords.any (containsWord request)

/-- `GenerationService.checkAmbiguityHeuristics`. -/
def checkAmbiguityHeuristics (request : List Char) : AmbiguityResult :=
  if (jsTrim request).length < 10 then
    ⟨true, some tooShortPrompt⟩
  else if startsWithVaguePronoun request then
    ⟨true, some vaguePronounPrompt⟩
  else if hasDoubleQuestion request then
    ⟨true, some uncertainPrompt⟩
  else
    let hasActionWordB := hasActionWord request
    let hasReasonableLength := decide (20 ≤ (jsTrim request).length)
    if !hasActionWordB || !hasReasonableLength then
      ⟨true, some moreDetailsPrompt⟩
    else
      ⟨false, none⟩

/-- `GenerationService.detectAmbiguity`, with the LLM tier
(`checkAmbiguityWithLLM`, a network call) abstracted as its outcome
`llmCheck` (`.error` = the call threw).  The second component records
whether the LLM tier was invoked at all. -/
def detectAmbiguity (llmCheck : Except Unit AmbiguityResult) (request : List Char) :
    AmbiguityResult × Bool :=
  let heuristicResult := checkAmbiguityHeuristics request
  if heuristicResult.isAmbiguous then
    (heuristicResult, false)
  else
    match llmCheck with
    | .ok r => (r, true)
    | .error _ => (⟨false, none⟩, true)

/-! ## Text chunker (RAGEngine.chunkText) -/

/-- `this.chunkSize` of `RAGEngine` (characters per chunk). -/
def chunkSize : Nat := 1000

/-- `this.chunkOverlap` of `RAGEngine` (overlap between chunks). -/
def chunkOverlap : Nat := 200

/-- One collapsing pass of `text.replace(/\s+/g, ' ')`; `prevWS` records
whether the previous character was whitespace (already replaced). -/
def collapseWSAux : Bool → List Char → List Char
  | _, [] => []
  | prevWS, c :: rest =>
    if jsWhitespace c then
      if prevWS then collapseWSAux true rest
      else ' ' :: collapseWSAux true rest
    else c :: collapseWSAux false rest

/-- `text.replace(/\s+/g, ' ').trim()` — the chunker's normalisation step. -/
def normalizeWS (text : List Char) : List Char :=
  jsTrim (collapseWSAux false text)

/-- JavaScript `s.lastIndexOf(c, fromIdx)`: the largest index `i ≤ fromIdx`
with `s[i] = c`, or `-1`. -/
def lastIndexOfFrom (s : List Char) (c : Char) (fromIdx : Int) : Int :=
  go s 0 (-1)
where
  go : List Char → Nat → Int → Int
  | [], _, best => best
  | x :: xs, i, best =>
    go xs (i + 1) (if x = c && decide ((i : Int) ≤ fromIdx) then (i : Int) else best)

/-- JavaScript `s.indexOf(sub)`: index of the first occurrence of the
substring `sub`, or `-1`. -/
def indexOfSub (s sub : List Char) : Int :=
  go s 0
where
  go : List Char → Nat → Int
  | [], i => if sub.isEmpty then (i : Int) else -1
  | x :: xs, i => if sub.isPrefixOf (x :: xs) then (i : Int) else go xs (i + 1)

/-- JavaScript `s.substring(a, b)`: both arguments clamped to `[0, length]`
and swapped if out of order. -/
def jsSubstring (s : List Char) (a b : Int) : List Char :=
  let n : Int := s.length
  let a' := (min (max a 0) n).toNat
  let b' := (min (max b 0) n).toNat
  ((s.drop (min a' b')).take (max a' b' - min a' b'))

/-- The per-iteration scan of `chunkText`'s while-loop: from `startIndex` it
computes the adjusted `endIndex` (sentence boundary, else word boundary,
else the hard `startIndex + chunkSize` cut) and the trimmed chunk text. -/
def chunkScan (text : List Char) (startIndex : Int) : Int × List Char :=
  let n : Int := text.length
  let endIndex0 : Int := startIndex + (chunkSize : Int)
  let endIndex : Int :=
    if endIndex0 < n then
      let sentenceEnd := lastIndexOfFrom text '.' endIndex0
      let exclamationEnd := lastIndexOfFrom text '!' endIndex0
      let questionEnd := lastIndexOfFrom text '?' endIndex0
      let maxSentenceEnd := max (max sentenceEnd exclamationEnd) questionEnd
      if maxSentenceEnd > startIndex + (chunkSize : Int) / 2 then
        maxSentenceEnd + 1
      else
        let spaceIndex := lastIndexOfFrom text ' ' endIndex0
        if spaceIndex > startIndex then spaceIndex else endIndex0
    else endIndex0
  (endIndex, jsTrim (jsSubstring text startIndex endIndex))

/-- One full iteration of `chunkText`'s while-loop body: scan, push the chunk
if non-empty, move the start index back by `chunkOverlap`, and apply the
source's forward-progress guard (which re-derives the previous cursor via
`indexOf` on the last pushed chunk). -/
def chunkStep (text : List Char) (startIndex : Int) (chunks : List (List Char)) :
    Int × List (List Char) :=
  let (endIndex, chunk) := chunkScan text startIndex
  let chunks' := if chunk.length > 0 then chunks ++ [chunk] else chunks
  let startIndex' := endIndex - (chunkOverlap : Int)
  let lastChunkIndex : Int :=
    match chunks'.getLast? with
    | some lastChunk => indexOfSub text lastChunk
    | none => 0
  if startIndex' ≤ lastChunkIndex then (endIndex, chunks') else (startIndex', chunks')

/-- The while-loop of `chunkText`, made total with explicit fuel: `none`
means the fuel ran out with the loop still running. -/
def chunkLoop (text : List Char) : Nat → Int → List (List Char) → Option (List (List Char))
  | 0, startIndex, chunks =>
    if startIndex < (text.length : Int) then none else some chunks
  | fuel + 1, startIndex, chunks =>
    if startIndex < (text.length : Int) then
      let (s', cs') := chunkStep text startIndex chunks
      chunkLoop text fuel s' cs'
    else some chunks

/-- `RAGEngine.chunkText` (fuelled). -/
def chunkText (fuel : Nat) (text : List Char) : Option (List (List Char)) :=
  let normalizedText := normalizeWS text
  if normalizedText.length ≤ chunkSize then some [normalizedText]
  else chunkLoop normalizedText fuel 0 []

/-! ## Completion client (LLMClient) -/

/-- `LLMResponse` of `LLMClient`. -/
structure LLMResponse where
  content : String
  tokensUsed : Nat
  model : String
  deriving DecidableEq, Repr

/-- The error value observed in `generateCompletion`'s catch block: its
`name`, `message`, and the optional `status` / `code` fields probed by
`isRetryableError`.  `status = some 0` models a present-but-falsy status. -/
structure JsError where
  name : String
  message : String
  status : Option Int
  code : Option String
  deriving DecidableEq, Repr

/-- `this.retryConfig.maxRetries`. -/
def maxRetries : Nat := 3

/-- `this.retryConfig.initialDelayMs`. -/
def initialDelayMs : Nat := 1000

/-- `this.retryConfig.maxDelayMs`. -/
def maxDelayMs : Nat := 10000

/-- `LLMClient.calculateBackoffDelay`. -/
def calculateBackoffDelay (attempt : Nat) : Nat :=
  min (initialDelayMs * 2 ^ attempt) maxDelayMs

/-- `LLMClient.isRetryableError`.  `error?.status` is truthy exactly when the
field is present and non-zero. -/
def isRetryableError (e : JsError) : Bool :=
  let codeRetry := (e.code == some "ECONNRESET") || (e.code == some "ETIMEDOUT")
  match e.status with
  | some s => if s ≠ 0 then (s == 429) || (500 ≤ s) else codeRetry
  | none => codeRetry

/-- What one iteration of `generateCompletion`'s try-block observes: the
awaited completion either resolved or threw. -/
inductive AttemptOutcome where
  | success (r : LLMResponse)
  | failure (e : JsError)
  deriving Repr

/-- Observable trace of one `generateCompletion` call: the value returned or
the message thrown, how many attempts ran, and the backoff delays slept. -/
structure CompletionTrace where
  result : Except String LLMResponse
  attemptsMade : Nat
  delays : List Nat
  deriving Repr

/-- The message of the error thrown after the loop:
`LLM request failed after (maxRetries + 1) attempts: <message>`, where the
message falls back to `Unknown error` when absent or empty. -/
def completionFailureMsg (lastError : Option JsError) : String :=
  "LLM request failed after " ++ toString (maxRetries + 1) ++ " attempts: " ++
    (match lastError with
     | some e => if e.message = "" then "Unknown error" else e.message
     | none => "Unknown error")

/-- The retry loop `for (attempt = 0; attempt <= maxRetries; attempt++)` of
`generateCompletion`.  `fuel` is the number of loop iterations the guard
still allows (`maxRetries + 1 - attempt`, maintained by the entry point);
the fuel-exhausted case is the loop guard failing, after which the
function throws with the last error. -/
def completionLoop (outcomes : Nat → AttemptOutcome) :
    Nat → Nat → Option JsError → List Nat → CompletionTrace
  | 0, attempt, lastError, delays =>
    ⟨.error (completionFailureMsg lastError), attempt, delays⟩
  | fuel + 1, attempt, _, delays =>
    match outcomes attempt with
    | .success r => ⟨.ok r, attempt + 1, delays⟩
    | .failure e =>
      if attempt = maxRetries || !isRetryableError e then
        ⟨.error (completionFailureMsg (some e)), attempt + 1, delays⟩
      else
        completionLoop outcomes fuel (attempt + 1) (some e)
          (delays ++ [calculateBackoffDelay attempt])

/-- `LLMClient.generateCompletion`, with the network call of each attempt
abstracted as its outcome `outcomes attempt`. -/
def generateCompletion (outcomes : Nat → AttemptOutcome) : CompletionTrace :=
  completionLoop outcomes (maxRetries + 1) 0 none []

/-! ## Output validators (OutputValidator.ts) -/

/-- `ValidationResult` of OutputValidator. -/
structure ValidationResult where
  isValid : Bool
  errors : List String
  suggestions : List String
  deriving DecidableEq, Repr

/-- JSON values as produced by `JSON.parse` (numbers as integers, which is
all the validators' inputs use). -/
inductive Json where
  | null
  | bool (b : Bool)
  | num (n : Int)
  | str (s : String)
  | arr (elems : List Json)
  | obj (fields : List (String × Json))
  deriving BEq, Repr

/-- JavaScript truthiness of a JSON value. -/
def jsTruthy : Json → Bool
  | .null => false
  | .bool b => b
  | .num n => !(n == 0)
  | .str s => !(s == "")
  | .arr _ => true
  | .obj _ => true

/-- `typeof v` being `object` (true for objects, arrays and `null`). -/
def jsTypeofObject : Json → Bool
  | .null => true
  | .arr _ => true
  | .obj _ => true
  | _ => false

def lookupField : List (String × Json) → String → Option Json
  | [], _ => none
  | (k', v) :: rest, k => if k' = k then some v else lookupField rest k

/-- Property access `j.k` (named properties exist only on objects here;
`undefined` is `none`). -/
def getField (j : Json) (k : String) : Option Json :=
  match j with
  | .obj fields => lookupField fields k
  | _ => none

/-- Truthiness of a possibly-`undefined` value (`undefined` is falsy). -/
def truthyOpt : Option Json → Bool
  | none => false
  | some j => jsTruthy j

mutual

/-- JavaScript string conversion `${v}` of a JSON value. -/
def jsDisplay : Json → String
  | .null => "null"
  | .bool true => "true"
  | .bool false => "false"
  | .num n => toString n
  | .str s => s
  | .arr xs => jsDisplayList xs
  | .obj _ => "[object Object]"

def jsDisplayList : List Json → String
  | [] => ""
  | [x] => jsDisplay x
  | x :: y :: rest => jsDisplay x ++ "," ++ jsDisplayList (y :: rest)

end

/-- `${v}` where `v` may be `undefined`. -/
def jsDisplayOpt : Option Json → String
  | none => "undefined"
  | some j => jsDisplay j

/-- `Object.keys(v)` paired with the corresponding values `v[k]`
(objects: own properties; arrays and strings: index properties). -/
def jsEntries : Json → List (String × Json)
  | .obj fields => fields
  | .arr xs => (xs.enum.map fun p => (toString p.1, p.2))
  | .str s => (s.toList.enum.map fun p => (toString p.1, Json.str (String.mk [p.2])))
  | _ => []

/-- `Object.values(v)`. -/
def jsValues (j : Json) : List Json :=
  (jsEntries j).map Prod.snd

/-- `Set.prototype.add` on a set represented as a duplicate-free list. -/
def setAdd (s : List Json) (v : Json) : List Json :=
  if s.contains v then s else s ++ [v]

/-! ### validateSQL -/

/-- The keyword alternation of
`/\b(SELECT|INSERT|UPDATE|DELETE|CREATE|ALTER|DROP|WITH)\b/i`. -/
def sqlKeywords : List (List Char) :=
  ["select".toList, "insert".toList, "update".toList, "delete".toList,
   "create".toList, "alter".toList, "drop".toList, "with".toList]

/-- `/SELECT\s+[\d'"][^;]*$/i.test(s)`: somewhere in `s`, `SELECT` followed
by whitespace, then a digit or quote, then no `;` up to the end. -/
def isSimpleSelect (s : List Char) : Bool :=
  (List.range s.length).any fun i =>
    ciMatchAt s "select".toList i &&
    (let tail := s.drop (i + 6)
     (List.range tail.length).any fun k =>
       decide (1 ≤ k) && (tail.take k).all jsWhitespace &&
       (match tail.get? k with
        | some c => c.isDigit || c = '\'' || c = '"'
        | none => false) &&
       (tail.drop (k + 1)).all (fun c => !(c = ';')))

/-- `/\$\{|\$\(|`/.test(s)` — template-literal / shell syntax marker. -/
def hasTemplateLitMark (s : List Char) : Bool :=
  containsSub s ['$', Char.ofNat 123] || containsSub s ['$', '('] ||
    containsSub s [Char.ofNat 96]

/-- `validateSQL` of OutputValidator. -/
def validateSQL (code : String) : ValidationResult :=
  let trimmedCode := jsTrim code.toList
  if trimmedCode.isEmpty then
    ⟨false, ["Generated SQL is empty"], []⟩
  else
    let notSQL := !(sqlKeywords.any (containsWord trimmedCode))
    let parensBad := !(trimmedCode.count '(' == trimmedCode.count ')')
    let quotesBad := !(trimmedCode.count '\'' % 2 == 0)
    let missingFrom :=
      containsWord trimmedCode "select".toList &&
      !(containsWord trimmedCode "from".toList) &&
      !(isSimpleSelect trimmedCode)
    let errors :=
      (if notSQL then ["Generated code does not appear to be valid SQL"] else []) ++
      (if parensBad then ["Unbalanced parentheses in SQL query"] else []) ++
      (if quotesBad then ["Unterminated string literal in SQL query"] else []) ++
      (if missingFrom then ["SELECT statement missing FROM clause"] else [])
    let suggestions :=
      (if notSQL then ["Ensure the request clearly describes a database operation"] else []) ++
      (if parensBad then ["Check for missing opening or closing parentheses"] else []) ++
      (if quotesBad then ["Check for missing closing quotes"] else []) ++
      (if missingFrom then ["Add a FROM clause to specify the table(s) to query"] else []) ++
      (if hasTemplateLitMark trimmedCode then
        ["Generated SQL contains template literals or shell syntax - verify this is intentional"] else [])
    ⟨errors.isEmpty, errors, suggestions⟩

/-! ### validateN8nWorkflow -/

/-- `typeof v` being `object` for a possibly-`undefined` value. -/
def typeofObjectOpt : Option Json → Bool
  | none => false
  | some j => jsTypeofObject j

/-- The `connectedNodes` set of `validateN8nWorkflow`: every connection-map
key, plus every `c.node` target found in the nested connection arrays. -/
def n8nConnectedNodes (conns : Json) : List Json :=
  (jsEntries conns).foldl
    (fun acc e =>
      let acc := setAdd acc (.str e.1)
      let nodeConnections := e.2
      if jsTruthy nodeConnections && jsTypeofObject nodeConnections then
        (jsValues nodeConnections).foldl
          (fun acc connections =>
            match connections with
            | .arr conns1 =>
              conns1.foldl
                (fun acc conn =>
                  match conn with
                  | .arr cs =>
                    cs.foldl
                      (fun acc c =>
                        if jsTruthy c then
                          match getField c "node" with
                          | some nd => if jsTruthy nd then setAdd acc nd else acc
                          | none => acc
                        else acc)
                      acc
                  | _ => acc)
                acc
            | _ => acc)
          acc
      else acc)
    []

/-- `connectedNodes.has(node.name)` (`undefined` is never in the set, since
only truthy values and key strings are added). -/
def n8nNameConnected (node : Json) (conns : Json) : Bool :=
  match getField node "name" with
  | some nm => (n8nConnectedNodes conns).contains nm
  | none => false

/-- The soft isolated-node suggestions pushed by the final `forEach` of the
isolation block. -/
def n8nIsolationSuggestions (ns : List Json) (conns : Json) : List String :=
  ns.filterMap fun node =>
    if n8nNameConnected node conns then none
    else some ("Node \"" ++ jsDisplayOpt (getField node "name") ++
      "\" appears to be isolated (no connections)")

/-- `v.length > 1` under JavaScript semantics for the values `JSON.parse` can
produce: array/string lengths, or a numeric `length` property of an object
(coercion of non-numeric `length` values is not modelled); everything else
compares as `undefined > 1`, i.e. false. -/
def jsLenGT1 : Json → Bool
  | .arr xs => decide (1 < xs.length)
  | .str s => decide (1 < s.length)
  | .obj fs =>
    match lookupField fs "length" with
    | some (.num n) => decide (1 < n)
    | _ => false
  | _ => false

/-- The isolated-node block of `validateN8nWorkflow` (guard
`workflow.nodes && workflow.connections && workflow.nodes.length > 1`).
When the guard passes but `nodes` is not an array, `workflow.nodes.forEach`
throws a `TypeError`, which the surrounding catch reports (`.error`). -/
def n8nIsolatedBlock (nodesF connsF : Option Json) : Except String (List String) :=
  if truthyOpt nodesF && truthyOpt connsF &&
      (match nodesF with | some v => jsLenGT1 v | none => false) then
    match nodesF with
    | some (.arr ns) => .ok (n8nIsolationSuggestions ns (connsF.getD .null))
    | _ => .error "workflow.nodes.forEach is not a function"
  else .ok []

/-- The per-node structure checks of `validateN8nWorkflow` (name, type,
position errors; missing-parameters suggestion), in push order. -/
def n8nNodeChecks (ns : List Json) : List String × List String :=
  ns.enum.foldl
    (fun acc p =>
      let index := p.1
      let node := p.2
      let nameF := getField node "name"
      let posF := getField node "position"
      let paramsF := getField node "parameters"
      let errs :=
        (if !truthyOpt nameF then
          ["Node at index " ++ toString index ++ " is missing a \"name\" property"] else []) ++
        (if !truthyOpt (getField node "type") then
          ["Node at index " ++ toString index ++ " is missing a \"type\" property"] else []) ++
        (if !truthyOpt posF || !typeofObjectOpt posF then
          ["Node at index " ++ toString index ++ " is missing valid \"position\" coordinates"] else [])
      let suggs :=
        (if !truthyOpt paramsF || !typeofObjectOpt paramsF then
          ["Node \"" ++ (if truthyOpt nameF then jsDisplayOpt nameF else toString index) ++
            "\" has no parameters - verify this is intentional"] else [])
      (acc.1 ++ errs, acc.2 ++ suggs))
    ([], [])

/-- `validateN8nWorkflow` of OutputValidator; `parsed` is the outcome of
`JSON.parse(code)` (`.error` = the parse threw, with that error's message). -/
def validateN8nWorkflow (parsed : Except String Json) : ValidationResult :=
  match parsed with
  | .error msg =>
    ⟨false, ["Invalid JSON: " ++ msg], ["Ensure the generated code is valid JSON format"]⟩
  | .ok workflow =>
    let nodesF := getField workflow "nodes"
    let connsF := getField workflow "connections"
    let isArrNodes := match nodesF with | some (.arr _) => true | _ => false
    let nodesErrors :=
      if !(truthyOpt nodesF) || !isArrNodes then
        ["n8n workflow must contain a \"nodes\" array"]
      else if (match nodesF with | some (.arr xs) => decide (xs.length = 0) | _ => false) then
        ["n8n workflow must contain at least one node"]
      else []
    let connsErrors :=
      if !(truthyOpt connsF) || !(typeofObjectOpt connsF) then
        ["n8n workflow must contain a \"connections\" object"]
      else []
    let nodeChecks := match nodesF with | some (.arr ns) => n8nNodeChecks ns | _ => ([], [])
    let errors := nodesErrors ++ connsErrors ++ nodeChecks.1
    match n8nIsolatedBlock nodesF connsF with
    | .error teMsg =>
      ⟨false, errors ++ ["Invalid JSON: " ++ teMsg],
        nodeChecks.2 ++ ["Ensure the generated code is valid JSON format"]⟩
    | .ok isoSuggs =>
      ⟨errors.isEmpty, errors, nodeChecks.2 ++ isoSuggs⟩

/-! ### validateFormioForm -/

/-- `/^[a-zA-Z_][a-zA-Z0-9_]*$/.test(key)`. -/
def formioKeyOk (s : String) : Bool :=
  match s.toList with
  | [] => false
  | c :: rest =>
    (('a' ≤ c && c ≤ 'z') || ('A' ≤ c && c ≤ 'Z') || c = '_') && rest.all wordChar

/-- The per-component checks of `validateFormioForm`, carrying the
`componentKeys` set; returns (errors, suggestions) in push order. -/
def formioComponentChecks (cs : List Json) : List String × List String :=
  let r := cs.enum.foldl
    (fun (acc : List String × List String × List Json) p =>
      let index := p.1
      let component := p.2
      let keyF := getField component "key"
      let typeF := getField component "type"
      let labelF := getField component "label"
      let typeErr :=
        if !truthyOpt typeF then
          ["Component at index " ++ toString index ++ " is missing a \"type\" property"]
        else []
      let (keyErrs, keys') :=
        if !truthyOpt keyF then
          (["Component at index " ++ toString index ++ " is missing a \"key\" property"], acc.2.2)
        else
          let key := keyF.getD .null
          ((if acc.2.2.contains key then
              ["Duplicate component key found: \"" ++ jsDisplay key ++ "\""] else []) ++
           (if !(formioKeyOk (jsDisplay key)) then
              ["Component key \"" ++ jsDisplay key ++ "\" contains invalid characters"] else []),
           setAdd acc.2.2 key)
      let labelSugg :=
        if !truthyOpt labelF && !(typeF == some (.str "button")) then
          ["Component \"" ++ (if truthyOpt keyF then jsDisplayOpt keyF else toString index) ++
            "\" is missing a \"label\" property"]
        else []
      let dataSugg :=
        if typeF == some (.str "select") || typeF == some (.str "radio") ||
            typeF == some (.str "selectboxes") then
          let dataF := getField component "data"
          let valuesF := match dataF with | some d => getField d "values" | none => none
          if !truthyOpt dataF || !truthyOpt valuesF then
            ["Component \"" ++ jsDisplayOpt keyF ++ "\" of type \"" ++ jsDisplayOpt typeF ++
              "\" should have data.values defined"]
          else []
        else []
      let requiredSugg :=
        let validateF := getField component "validate"
        if truthyOpt validateF && typeofObjectOpt validateF then
          if truthyOpt (match validateF with | some v => getField v "required" | none => none) &&
              !truthyOpt labelF then
            ["Required component \"" ++ jsDisplayOpt keyF ++ "\" should have a label"]
          else []
        else []
      (acc.1 ++ typeErr ++ keyErrs, acc.2.1 ++ labelSugg ++ dataSugg ++ requiredSugg, keys'))
    ([], [], [])
  (r.1, r.2.1)

/-- The submit-button probe: some component whose `type` is `button` and whose
`action` is `submit` or absent/falsy. -/
def formioHasSubmitButton (cs : List Json) : Bool :=
  cs.any fun c =>
    (getField c "type" == some (.str "button")) &&
    ((getField c "action" == some (.str "submit")) || !truthyOpt (getField c "action"))

/-- `validateFormioForm` of OutputValidator. -/
def validateFormioForm (parsed : Except String Json) : ValidationResult :=
  match parsed with
  | .error msg =>
    ⟨false, ["Invalid JSON: " ++ msg], ["Ensure the generated code is valid JSON format"]⟩
  | .ok form =>
    let compF := getField form "components"
    let isArrComp := match compF with | some (.arr _) => true | _ => false
    let baseErrors :=
      if !(truthyOpt compF) || !isArrComp then
        ["Form.io form must contain a \"components\" array"]
      else if (match compF with | some (.arr xs) => decide (xs.length = 0) | _ => false) then
        ["Form.io form must contain at least one component"]
      else []
    let compChecks := match compF with | some (.arr cs) => formioComponentChecks cs | _ => ([], [])
    let submitSugg :=
      match compF with
      | some (.arr cs) =>
        if formioHasSubmitButton cs then [] else ["Form does not contain a submit button"]
      | _ => []
    let errors := baseErrors ++ compChecks.1
    ⟨errors.isEmpty, errors, compChecks.2 ++ submitSugg⟩

/-- `validateOutput` of OutputValidator: dispatch on the (runtime) output
type string, with the `default` fallback for unknown types.  `parse` is the
outcome of `JSON.parse` on the generated code. -/
def validateOutput (parse : String → Except String Json) (code outputType : String) :
    ValidationResult :=
  if outputType = "sql" then validateSQL code
  else if outputType = "n8n" then validateN8nWorkflow (parse code)
  else if outputType = "formio" then validateFormioForm (parse code)
  else ⟨false, ["Unknown output type: " ++ outputType], []⟩

/-! ## Generation orchestrator (GenerationService.generateCode) -/

/-- `ContextChunk` of RAGEngine (the score is never inspected by the
orchestrator; it is only rendered into the context string). -/
structure ContextChunk where
  content : String
  source : String
  relevanceScore : Float
  versionId : String
  fileId : String
  filename : String

/-- `GenerationResult.metadata`. -/
structure GenMetadata where
  tokensUsed : Nat
  processingTime : Nat
  contextFiles : List String
  model : String
  deriving Repr

/-- `GenerationResult` of GenerationService. -/
structure GenerationResult where
  generatedCode : String
  metadata : GenMetadata
  validation : ValidationResult
  deriving Repr

/-- The message of the error thrown by `generateCode` when retrieval returns
zero chunks. -/
def noContextMsg : String :=
  "No context found for the specified version. Please ensure DDL files and documentation are uploaded."

/-- `[...new Set(xs)]`: deduplication preserving first occurrences. -/
def jsSetOfList (xs : List String) : List String :=
  xs.foldl (fun acc s => if acc.contains s then acc else acc ++ [s]) []

/-- `GenerationService.generateCode`.  External collaborators are abstracted
as their outcomes on this request: `buildCtx` is `ragEngine.buildContextString`
(its float formatting is irrelevant here), `buildPr` is `buildPrompts`
(system/user pair), `llm` is a *successful* `llmClient.generateCompletion`
(an LLM failure would propagate out of the orchestrator unchanged, before
any validation), `parse` is `JSON.parse` as used by the JSON validators,
`elapsed` the wall-clock delta, and `contextChunks` the list returned by
`ragEngine.retrieveContext`.  Besides the thrown-or-returned outcome, the
trace records whether prompt building ran and whether the completion client
was invoked. -/
def generateCode
    (buildCtx : List ContextChunk → String)
    (buildPr : String → String → String → String × String)
    (llm : String → String → LLMResponse)
    (parse : String → Except String Json)
    (elapsed : Nat)
    (request outputType : String)
    (contextChunks : List ContextChunk) :
    Except String GenerationResult × Bool × Bool :=
  if contextChunks.length = 0 then
    (.error noContextMsg, false, false)
  else
    let contextString := buildCtx contextChunks
    let contextFiles := jsSetOfList (contextChunks.map (·.source))
    let prompts := buildPr outputType contextString request
    let llmResponse := llm prompts.1 prompts.2
    let validation := validateOutput parse llmResponse.content outputType
    (.ok
      { generatedCode := llmResponse.content
        metadata :=
          { tokensUsed := llmResponse.tokensUsed
            processingTime := elapsed
            contextFiles := contextFiles
            model := llmResponse.model }
        validation := validation },
      true, true)

/-! ## Concrete inputs used in the theorems -/

/-- A document on which `chunkText`'s forward-progress guard fails: the
second iteration's chunk (200 `a`s) also occurs at position 0, so the
`indexOf`-based guard keeps resetting the cursor to 201 forever. -/
def repeatedChunkText : List Char :=
  List.replicate 200 'a' ++ ' ' :: (List.replicate 200 'a' ++ ' ' :: List.replicate 1000 'b')

/-- The chunk `chunkText` gets stuck re-emitting on `repeatedChunkText`. -/
def stuckChunk : List Char := List.replicate 200 'a'

/-- The first chunk produced from `repeatedChunkText`. -/
def firstRepeatedChunk : List Char :=
  List.replicate 200 'a' ++ ' ' :: List.replicate 200 'a'

/-- A document with a sentence terminator exactly at index `chunkSize`: the
sentence-boundary branch sets `endIndex = chunkSize + 1`, producing a
1001-character first chunk. -/
def overlongChunkText : List Char :=
  List.replicate 1000 'a' ++ '.' :: ['b']

/-- The 1001-character first chunk produced from `overlongChunkText`. -/
def overlongFirstChunk : List Char := List.replicate 1000 'a' ++ ['.']

/-- The second (final) chunk produced from `overlongChunkText`. -/
def overlongSecondChunk : List Char := List.replicate 199 'a' ++ ['.', 'b']

/-- The per-attempt 30-second timeout firing: the abort controller makes the
in-flight call reject with an `AbortError`, which carries neither an HTTP
`status` nor a network error `code`. -/
def abortTimeoutError : JsError :=
  ⟨"AbortError", "Request was aborted.", none, none⟩

/-- An HTTP 429 failure. -/
def rateLimitError : JsError :=
  ⟨"APIError", "Rate limit exceeded", some 429, none⟩

/-- An HTTP 503 failure. -/
def serverError : JsError :=
  ⟨"APIError", "Service unavailable", some 503, none⟩

/-- An HTTP 400 failure (non-retryable). -/
def badRequestError : JsError :=
  ⟨"APIError", "Bad request", some 400, none⟩

/-- The n8n example workflow with no nodes. -/
def n8nEmptyWorkflow : Json :=
  .obj [("nodes", .arr []), ("connections", .obj [])]

/-- A single well-formed n8n node named `A`. -/
def n8nNodeA : Json :=
  .obj [("name", .str "A"), ("type", .str "t"),
        ("position", .obj [("x", .num 0), ("y", .num 0)])]

/-- The n8n example workflow with exactly one node and no connections. -/
def n8nSingleNodeWorkflow : Json :=
  .obj [("nodes", .arr [n8nNodeA]), ("connections", .obj [])]

/-- A second well-formed n8n node named `B`. -/
def n8nNodeB : Json :=
  .obj [("name", .str "B"), ("type", .str "t"),
        ("position", .obj [("x", .num 1), ("y", .num 1)]), ("parameters", .obj [])]

/-- A two-node n8n workflow with an empty connection map (both nodes
isolated). -/
def n8nTwoNodeWorkflow : Json :=
  .obj [("nodes", .arr [n8nNodeA, n8nNodeB]), ("connections", .obj [])]

/-- A retrieved context chunk used to exercise the orchestrator. -/
def sampleChunk : ContextChunk :=
  ⟨"CREATE TABLE orders (id INT, customer_id INT, total INT)", "orders.sql", 0.9,
   "v1", "f1", "orders.sql"⟩

/-! ## Theorems -/

/-- C1 (counterexample): the heuristic tier is NOT an and-gate.  The request
`"get all men"` passes the first three heuristic checks and contains the
action verb `get`, yet `checkAmbiguityHeuristics` still flags it as
ambiguous (because its trimmed length is below 20): being short suffices,
the claimed conjunction with "lacks every action verb" does not hold. -/
theorem checkAmbiguityHeuristics_and_gate_counterexample :
    ¬ (∀ r : List Char, 10 ≤ (jsTrim r).length → startsWithVaguePronoun r = false →
        hasDoubleQuestion r = false →
        (checkAmbiguityHeuristics r).isAmbiguous = true →
        hasActionWord r = false ∧ (jsTrim r).length < 20) := by
  intro h
  have h2 := h "get all men".toList (by decide) (by decide) (by decide) (by decide)
  exact absurd h2.1 (by decide)

/-- C1 (amended): for a request that passes the first three heuristic checks
(trimmed length ≥ 10, no leading bare pronoun, no double question mark), the
heuristic tier flags it as ambiguous iff it lacks every recognized action
verb OR its trimmed length is below 20; and a request caught by a heuristic
(such as `"it"`, trimmed length < 10) is answered by `detectAmbiguity`
without the LLM tier ever being invoked. -/
theorem checkAmbiguityHeuristics_or_gate_and_no_llm :
    (∀ r : List Char, 10 ≤ (jsTrim r).length → startsWithVaguePronoun r = false →
        hasDoubleQuestion r = false →
        ((checkAmbiguityHeuristics r).isAmbiguous = true ↔
          (hasActionWord r = false ∨ (jsTrim r).length < 20))) ∧
    (∀ llmCheck, detectAmbiguity llmCheck "it".toList =
        (⟨true, some tooShortPrompt⟩, false)) := by
  constructor
  · intro r h1 h2 h3
    unfold checkAmbiguityHeuristics
    rw [if_neg (by omega), if_neg (by simp [h2]), if_neg (by simp [h3])]
    by_cases ha : hasActionWord r <;> by_cases hl : 20 ≤ (jsTrim r).length <;>
      (simp [ha, hl]; try omega)
  · intro llmCheck
    rfl

/-- C1 (witness): the amended iff applied to a concrete long request with an
action verb (not ambiguous), and the heuristic-caught `"it"` path. -/
theorem checkAmbiguityHeuristics_or_gate_and_no_llm_witness :
    (checkAmbiguityHeuristics "find all users older than 30".toList).isAmbiguous = false ∧
    detectAmbiguity (.error ()) "it".toList = (⟨true, some tooShortPrompt⟩, false) := by
  constructor
  · have h := checkAmbiguityHeuristics_or_gate_and_no_llm.1
      "find all users older than 30".toList (by decide) (by decide) (by decide)
    cases hb : (checkAmbiguityHeuristics "find all users older than 30".toList).isAmbiguous
    · rfl
    · exact absurd (h.mp hb) (by decide)
  · exact checkAmbiguityHeuristics_or_gate_and_no_llm.2 (.error ())

/-- C8: the four SQL validation examples: empty input is rejected with the
empty-SQL error; `SELECT * FROM users` is valid with no errors;
`SELECT * WHERE x=1` is invalid with the missing-FROM error; `SELECT (1` is
invalid with the unbalanced-parentheses error. -/
theorem validateSQL_examples :
    validateSQL "" = ⟨false, ["Generated SQL is empty"], []⟩ ∧
    validateSQL "SELECT * FROM users" = ⟨true, [], []⟩ ∧
    ((validateSQL "SELECT * WHERE x=1").isValid = false ∧
      "SELECT statement missing FROM clause" ∈ (validateSQL "SELECT * WHERE x=1").errors) ∧
    ((validateSQL "SELECT (1").isValid = false ∧
      "Unbalanced parentheses in SQL query" ∈ (validateSQL "SELECT (1").errors) := by
  refine ⟨by decide, by decide, ⟨by decide, by decide⟩, ⟨by decide, by decide⟩⟩

/-- C9: the empty n8n workflow is invalid with the at-least-one-node hard
error; the one-node workflow is valid and gets no isolated-node suggestion
(its only suggestion is the missing-parameters one); and in general the
isolated-node block emits suggestions only when the nodes array has more
than one element and some node's name is not connected (neither a source
key nor a target) in the connection map. -/
theorem validateN8nWorkflow_examples_and_isolation_guard :
    validateN8nWorkflow (.ok n8nEmptyWorkflow) =
      ⟨false, ["n8n workflow must contain at least one node"], []⟩ ∧
    validateN8nWorkflow (.ok n8nSingleNodeWorkflow) =
      ⟨true, [], ["Node \"A\" has no parameters - verify this is intentional"]⟩ ∧
    (∀ nodesF connsF suggs, n8nIsolatedBlock nodesF connsF = .ok suggs → suggs ≠ [] →
      ∃ ns, nodesF = some (Json.arr ns) ∧ 1 < ns.length ∧
        ∃ node ∈ ns, n8nNameConnected node (connsF.getD .null) = false) := by
  refine ⟨by decide, by decide, ?_⟩
  intro nodesF connsF suggs hok hne
  unfold n8nIsolatedBlock at hok
  rcases nodesF with _ | j
  · simp only [truthyOpt, Bool.false_and, Bool.and_eq_true, if_neg, reduceIte] at hok
    exact absurd hok.symm (by simpa using hne)
  · cases j with
    | arr ns =>
      split at hok
      · rename_i hguard
        injection hok with hok
        refine ⟨ns, rfl, ?_, ?_⟩
        · simp only [Bool.and_eq_true] at hguard
          simpa [jsLenGT1] using hguard.2
        · subst hok
          rw [n8nIsolationSuggestions, Ne, List.filterMap_eq_nil_iff] at hne
          push_neg at hne
          obtain ⟨node, hmem, hsome⟩ := hne
          refine ⟨node, hmem, ?_⟩
          by_cases hc : n8nNameConnected node (connsF.getD .null)
          · simp [hc] at hsome
          · simpa using hc
      · injection hok with hok
        exact absurd hok.symm hne
    | null =>
      split at hok
      · cases hok
      · injection hok with hok; exact absurd hok.symm hne
    | bool b =>
      split at hok
      · cases hok
      · injection hok with hok; exact absurd hok.symm hne
    | num n =>
      split at hok
      · cases hok
      · injection hok with hok; exact absurd hok.symm hne
    | str s =>
      split at hok
      · cases hok
      · injection hok with hok; exact absurd hok.symm hne
    | obj fs =>
      split at hok
      · cases hok
      · injection hok with hok; exact absurd hok.symm hne

/-- C9 (witness): the isolation guard applied to the concrete two-node
workflow with an empty connection map. -/
theorem validateN8nWorkflow_examples_and_isolation_guard_witness :
    ∃ ns, getField n8nTwoNodeWorkflow "nodes" = some (Json.arr ns) ∧ 1 < ns.length ∧
      ∃ node ∈ ns, n8nNameConnected node ((getField n8nTwoNodeWorkflow "connections").getD .null) = false := by
  exact validateN8nWorkflow_examples_and_isolation_guard.2.2
    (getField n8nTwoNodeWorkflow "nodes") (getField n8nTwoNodeWorkflow "connections")
    (n8nIsolationSuggestions [n8nNodeA, n8nNodeB] (.obj [])) rfl (by decide)

/-- Helper: `validateSQL` reports valid exactly when it collected no errors. -/
theorem validateSQL_isValid_iff (code : String) :
    (validateSQL code).isValid = true ↔ (validateSQL code).errors = [] := by
  unfold validateSQL
  by_cases h : jsTrim code.data = []
  · simp [h]
  · simp [h, List.isEmpty_iff]

/-- Helper: `validateN8nWorkflow` reports valid exactly when it collected no
errors. -/
theorem validateN8nWorkflow_isValid_iff (parsed : Except String Json) :
    (validateN8nWorkflow parsed).isValid = true ↔ (validateN8nWorkflow parsed).errors = [] := by
  unfold validateN8nWorkflow
  cases parsed with
  | error msg => simp
  | ok workflow =>
    cases hiso : n8nIsolatedBlock (getField workflow "nodes") (getField workflow "connections") with
    | error teMsg => simp [hiso]
    | ok isoSuggs => simp [hiso, List.isEmpty_iff]

/-- Helper: `validateFormioForm` reports valid exactly when it collected no
errors. -/
theorem validateFormioForm_isValid_iff (parsed : Except String Json) :
    (validateFormioForm parsed).isValid = true ↔ (validateFormioForm parsed).errors = [] := by
  unfold validateFormioForm
  cases parsed with
  | error msg => simp
  | ok form => simp [List.isEmpty_iff]

/-- C10: on every return path of every validator (including the
JSON-parse-failure short-circuit and the unknown-output-type fallback),
`isValid` is true exactly when the `errors` list is empty; suggestions never
affect validity. -/
theorem validateOutput_isValid_iff_no_errors
    (parse : String → Except String Json) (code outputType : String) :
    (validateOutput parse code outputType).isValid = true ↔
      (validateOutput parse code outputType).errors = [] := by
  unfold validateOutput
  split
  · exact validateSQL_isValid_iff code
  · split
    · exact validateN8nWorkflow_isValid_iff (parse code)
    · split
      · exact validateFormioForm_isValid_iff (parse code)
      · simp

/-- C4: the backoff delay is exactly `min(initialDelay * 2^attempt, maxDelay)`,
hence non-decreasing and capped at 10000 ms; `generateCompletion` makes
exactly 4 attempts when every attempt fails with a retryable error (throwing
a message wrapping the last failure, after sleeping 1000/2000/4000 ms), and
exactly 1 attempt when the first failure is non-retryable. -/
theorem calculateBackoffDelay_and_attempt_counts :
    (∀ n, calculateBackoffDelay n = min (initialDelayMs * 2 ^ n) maxDelayMs) ∧
    (∀ n, calculateBackoffDelay n ≤ calculateBackoffDelay (n + 1)) ∧
    (∀ n, calculateBackoffDelay n ≤ 10000) ∧
    (∀ (outcomes : Nat → AttemptOutcome) (es : Nat → JsError),
      (∀ i, i ≤ maxRetries → outcomes i = .failure (es i)) →
      (∀ i, i ≤ maxRetries → isRetryableError (es i) = true) →
      generateCompletion outcomes =
        ⟨.error (completionFailureMsg (some (es 3))), 4, [1000, 2000, 4000]⟩) ∧
    (∀ (outcomes : Nat → AttemptOutcome) (e : JsError),
      outcomes 0 = .failure e → isRetryableError e = false →
      generateCompletion outcomes = ⟨.error (completionFailureMsg (some e)), 1, []⟩) := by
  refine ⟨fun n => rfl, ?_, ?_, ?_, ?_⟩
  · intro n
    unfold calculateBackoffDelay
    have h : initialDelayMs * 2 ^ n ≤ initialDelayMs * 2 ^ (n + 1) :=
      Nat.mul_le_mul_left _ (Nat.pow_le_pow_right (by norm_num) (by omega))
    omega
  · intro n
    unfold calculateBackoffDelay maxDelayMs
    omega
  · intro outcomes es hout hretry
    have h0 := hout 0 (by norm_num [maxRetries])
    have h1 := hout 1 (by norm_num [maxRetries])
    have h2 := hout 2 (by norm_num [maxRetries])
    have h3 := hout 3 (by norm_num [maxRetries])
    have r0 := hretry 0 (by norm_num [maxRetries])
    have r1 := hretry 1 (by norm_num [maxRetries])
    have r2 := hretry 2 (by norm_num [maxRetries])
    simp [generateCompletion, completionLoop, h0, h1, h2, h3, r0, r1, r2,
      maxRetries, calculateBackoffDelay, initialDelayMs, maxDelayMs]
  · intro outcomes e h hr
    simp [generateCompletion, completionLoop, h, hr, maxRetries]

/-- C4 (witness): the attempt counts at concrete outcome sequences — an
always-503 run makes 4 attempts with delays 1000/2000/4000, and a 400 on the
first attempt stops after 1 attempt. -/
theorem calculateBackoffDelay_and_attempt_counts_witness :
    generateCompletion (fun _ => .failure serverError) =
      ⟨.error (completionFailureMsg (some serverError)), 4, [1000, 2000, 4000]⟩ ∧
    generateCompletion (fun _ => .failure badRequestError) =
      ⟨.error (completionFailureMsg (some badRequestError)), 1, []⟩ := by
  constructor
  · exact calculateBackoffDelay_and_attempt_counts.2.2.2.1 (fun _ => .failure serverError)
      (fun _ => serverError) (fun i _ => rfl) (fun i _ => rfl)
  · exact calculateBackoffDelay_and_attempt_counts.2.2.2.2 (fun _ => .failure badRequestError)
      badRequestError rfl rfl

/-- C3 (code bug): an attempt that fails with the 30-second-timeout
`AbortError` is NOT treated as retryable — `isRetryableError` only accepts
HTTP 429/5xx statuses and `ECONNRESET`/`ETIMEDOUT` codes, none of which an
abort carries — so `generateCompletion` gives up after one attempt with no
backoff, even though a retry would have succeeded; an HTTP 429 failure in
the same position IS retried after the 1000 ms backoff. -/
theorem abortError_not_retried_unlike_429 :
    isRetryableError abortTimeoutError = false ∧
    (∀ r, generateCompletion (fun i => if i = 0 then .failure abortTimeoutError else .success r) =
      ⟨.error (completionFailureMsg (some abortTimeoutError)), 1, []⟩) ∧
    (∀ r, generateCompletion (fun i => if i = 0 then .failure rateLimitError else .success r) =
      ⟨.ok r, 2, [1000]⟩) := by
  exact ⟨rfl, fun r => rfl, fun r => rfl⟩

/-- C6: when retrieval returns an empty chunk list, `generateCode` throws the
no-context error without building prompts or invoking the completion client
(both trace flags false); and the completion client flag can only be true
when the retrieved context list was non-empty. -/
theorem generateCode_no_context_short_circuits :
    (∀ buildCtx buildPr llm parse elapsed request outputType,
      generateCode buildCtx buildPr llm parse elapsed request outputType [] =
        (.error noContextMsg, false, false)) ∧
    (∀ buildCtx buildPr llm parse elapsed request outputType chunks,
      (generateCode buildCtx buildPr llm parse elapsed request outputType chunks).2.2 = true →
      chunks ≠ []) := by
  constructor
  · intros
    rfl
  · intro _ _ _ _ _ _ _ chunks h
    cases chunks with
    | nil => simp [generateCode] at h
    | cons a l => simp

/-- C6 (witness): the completion client runs on a concrete one-chunk context,
so that context is non-empty. -/
theorem generateCode_no_context_short_circuits_witness :
    ([sampleChunk] : List ContextChunk) ≠ [] := by
  exact generateCode_no_context_short_circuits.2 (fun _ => "ctx") (fun _ c r => ("sys", c ++ r))
    (fun _ _ => ⟨"SELECT 1", 3, "m"⟩) (fun _ => .error "not json") 5 "req" "sql" [sampleChunk] rfl

/-- C7: for any non-empty context, `generateCode` returns a successful
`GenerationResult` carrying the generated code together with its
`ValidationResult` — whatever that validation says (it is computed by
`validateOutput` and embedded, never thrown). -/
theorem generateCode_returns_validation_in_result :
    ∀ buildCtx buildPr llm parse elapsed request outputType
      (chunks : List ContextChunk), chunks ≠ [] →
      (generateCode buildCtx buildPr llm parse elapsed request outputType chunks).1 =
        .ok
          { generatedCode :=
              (llm (buildPr outputType (buildCtx chunks) request).1
                (buildPr outputType (buildCtx chunks) request).2).content
            metadata :=
              { tokensUsed :=
                  (llm (buildPr outputType (buildCtx chunks) request).1
                    (buildPr outputType (buildCtx chunks) request).2).tokensUsed
                processingTime := elapsed
                contextFiles := jsSetOfList (chunks.map (·.source))
                model :=
                  (llm (buildPr outputType (buildCtx chunks) request).1
                    (buildPr outputType (buildCtx chunks) request).2).model }
            validation :=
              validateOutput parse
                (llm (buildPr outputType (buildCtx chunks) request).1
                  (buildPr outputType (buildCtx chunks) request).2).content
                outputType } := by
  intro buildCtx buildPr llm parse elapsed request outputType chunks h
  unfold generateCode
  rw [if_neg (by simpa using h)]

/-- C7 (witness): a concrete run whose generated code (the empty string) is
invalid SQL still comes back as a successful result with the invalid
validation report embedded. -/
theorem generateCode_returns_validation_in_result_witness :
    (generateCode (fun _ => "ctx") (fun _ c r => ("sys", c ++ r)) (fun _ _ => ⟨"", 0, "m"⟩)
        (fun _ => .error "not json") 7 "req" "sql" [sampleChunk]).1 =
      .ok
        { generatedCode := ""
          metadata :=
            { tokensUsed := 0, processingTime := 7, contextFiles := ["orders.sql"], model := "m" }
          validation := validateSQL "" } ∧
    (validateSQL "").isValid = false := by
  constructor
  · exact generateCode_returns_validation_in_result (fun _ => "ctx") (fun _ c r => ("sys", c ++ r))
      (fun _ _ => ⟨"", 0, "m"⟩) (fun _ => .error "not json") 7 "req" "sql" [sampleChunk]
      (by simp)
  · decide

/-! ### Chunker lemmas -/

theorem jsTrim_length_le (s : List Char) : (jsTrim s).length ≤ s.length := by
  have h1 : ((s.dropWhile jsWhitespace).reverse.dropWhile jsWhitespace).length ≤
      (s.dropWhile jsWhitespace).reverse.length := (List.dropWhile_sublist _).length_le
  have h2 : (s.dropWhile jsWhitespace).length ≤ s.length := (List.dropWhile_sublist _).length_le
  simp only [jsTrim, List.length_reverse] at h1 ⊢
  omega

theorem lastIndexOfFrom_go_bound (c : Char) (f : Int) :
    ∀ (l : List Char) (i : Nat) (best : Int), best = -1 ∨ best ≤ f →
      (lastIndexOfFrom.go c f l i best = -1 ∨ lastIndexOfFrom.go c f l i best ≤ f) := by
  intro l
  induction l with
  | nil => intro i best h; simpa [lastIndexOfFrom.go] using h
  | cons x xs ih =>
    intro i best h
    rw [lastIndexOfFrom.go]
    apply ih
    by_cases hc : (decide (x = c) && decide ((i : Int) ≤ f)) = true
    · right
      rw [if_pos hc]
      have := (Bool.and_eq_true _ _).mp hc
      exact of_decide_eq_true this.2
    · rw [if_neg hc]
      exact h

theorem lastIndexOfFrom_bound (s : List Char) (c : Char) (f : Int) :
    lastIndexOfFrom s c f = -1 ∨ lastIndexOfFrom s c f ≤ f := by
  unfold lastIndexOfFrom
  exact lastIndexOfFrom_go_bound c f s 0 (-1) (Or.inl rfl)

theorem indexOfSub_go_ge (sub : List Char) :
    ∀ (l : List Char) (i : Nat), -1 ≤ indexOfSub.go sub l i := by
  intro l
  induction l with
  | nil => intro i; rw [indexOfSub.go]; split <;> omega
  | cons x xs ih =>
    intro i
    rw [indexOfSub.go]
    split
    · omega
    · exact ih (i + 1)

theorem indexOfSub_ge (s sub : List Char) : -1 ≤ indexOfSub s sub := by
  unfold indexOfSub
  exact indexOfSub_go_ge sub s 0

theorem indexOfSub_go_le (sub : List Char) :
    ∀ (l : List Char) (i : Nat), indexOfSub.go sub l i ≤ (i : Int) + l.length := by
  intro l
  induction l with
  | nil => intro i; rw [indexOfSub.go]; split <;> omega
  | cons x xs ih =>
    intro i
    rw [indexOfSub.go]
    split
    · have : (0 : Int) ≤ ((x :: xs).length : Int) := by positivity
      omega
    · have := ih (i + 1)
      simp only [List.length_cons]
      push_cast at this ⊢
      omega

theorem indexOfSub_le (s sub : List Char) : indexOfSub s sub ≤ (s.length : Int) := by
  unfold indexOfSub
  simpa using indexOfSub_go_le sub s 0

theorem jsSubstring_length_le (s : List Char) (a b : Int) (hab : a ≤ b) :
    ((jsSubstring s a b).length : Int) ≤ b - a := by
  have hrfl : jsSubstring s a b =
      (s.drop (min ((min (max a 0) (s.length : Int)).toNat)
          ((min (max b 0) (s.length : Int)).toNat))).take
        (max ((min (max a 0) (s.length : Int)).toNat)
            ((min (max b 0) (s.length : Int)).toNat) -
          min ((min (max a 0) (s.length : Int)).toNat)
            ((min (max b 0) (s.length : Int)).toNat)) := rfl
  rw [hrfl]
  have hlen := List.length_take_le
    (max ((min (max a 0) (s.length : Int)).toNat) ((min (max b 0) (s.length : Int)).toNat) -
      min ((min (max a 0) (s.length : Int)).toNat) ((min (max b 0) (s.length : Int)).toNat))
    (s.drop (min ((min (max a 0) (s.length : Int)).toNat)
      ((min (max b 0) (s.length : Int)).toNat)))
  omega

theorem chunkScan_fst_eq (text : List Char) (s : Int) :
    (chunkScan text s).1 =
      (if s + (chunkSize : Int) < (text.length : Int) then
        if max (max (lastIndexOfFrom text '.' (s + (chunkSize : Int)))
            (lastIndexOfFrom text '!' (s + (chunkSize : Int))))
            (lastIndexOfFrom text '?' (s + (chunkSize : Int))) >
            s + (chunkSize : Int) / 2 then
          max (max (lastIndexOfFrom text '.' (s + (chunkSize : Int)))
            (lastIndexOfFrom text '!' (s + (chunkSize : Int))))
            (lastIndexOfFrom text '?' (s + (chunkSize : Int))) + 1
        else
          if lastIndexOfFrom text ' ' (s + (chunkSize : Int)) > s then
            lastIndexOfFrom text ' ' (s + (chunkSize : Int))
          else s + (chunkSize : Int)
      else s + (chunkSize : Int)) := rfl

theorem chunkScan_snd_eq (text : List Char) (s : Int) :
    (chunkScan text s).2 = jsTrim (jsSubstring text s (chunkScan text s).1) := rfl

theorem chunkScan_fst_bounds (text : List Char) (s : Int) (hs : 0 ≤ s) :
    s < (chunkScan text s).1 ∧ (chunkScan text s).1 ≤ s + (chunkSize : Int) + 1 := by
  rw [chunkScan_fst_eq]
  by_cases h1 : s + (chunkSize : Int) < (text.length : Int)
  · rw [if_pos h1]
    rcases lastIndexOfFrom_bound text '.' (s + (chunkSize : Int)) with hd | hd <;>
    rcases lastIndexOfFrom_bound text '!' (s + (chunkSize : Int)) with he | he <;>
    rcases lastIndexOfFrom_bound text '?' (s + (chunkSize : Int)) with hq | hq <;>
    {
      by_cases h2 : max (max (lastIndexOfFrom text '.' (s + (chunkSize : Int)))
          (lastIndexOfFrom text '!' (s + (chunkSize : Int))))
          (lastIndexOfFrom text '?' (s + (chunkSize : Int))) > s + (chunkSize : Int) / 2
      · rw [if_pos h2]
        constructor <;> (simp only [chunkSize] at h2 hd he hq ⊢; omega)
      · rw [if_neg h2]
        by_cases h3 : lastIndexOfFrom text ' ' (s + (chunkSize : Int)) > s
        · rw [if_pos h3]
          rcases lastIndexOfFrom_bound text ' ' (s + (chunkSize : Int)) with hsp | hsp <;>
            (constructor <;> (simp only [chunkSize] at * ; omega))
        · rw [if_neg h3]
          constructor <;> (simp only [chunkSize]; omega)
    }
  · rw [if_neg h1]
    constructor <;> (simp only [chunkSize]; omega)

theorem chunkScan_spec (text : List Char) (s : Int) (hs : 0 ≤ s) :
    ∃ e, chunkScan text s = (e, jsTrim (jsSubstring text s e)) ∧ s < e ∧
      e ≤ s + (chunkSize : Int) + 1 := by
  obtain ⟨h1, h2⟩ := chunkScan_fst_bounds text s hs
  exact ⟨(chunkScan text s).1, by rw [← chunkScan_snd_eq], h1, h2⟩

theorem chunkScan_chunk_le (text : List Char) (s : Int) (hs : 0 ≤ s) :
    (((chunkScan text s).2.length : Nat) : Int) ≤ (chunkSize : Int) + 1 := by
  obtain ⟨e, heq, hlt, hle⟩ := chunkScan_spec text s hs
  have he1 : (chunkScan text s).1 = e := by rw [heq]
  have he2 : (chunkScan text s).2 = jsTrim (jsSubstring text s e) := by
    rw [chunkScan_snd_eq, he1]
  rw [he2]
  have t1 : ((jsTrim (jsSubstring text s e)).length : Int) ≤
      ((jsSubstring text s e).length : Int) := by exact_mod_cast jsTrim_length_le _
  have t2 := jsSubstring_length_le text s e (le_of_lt hlt)
  omega

theorem chunkStep_snd_eq (text : List Char) (s : Int) (cs : List (List Char)) :
    (chunkStep text s cs).2 =
      (if (chunkScan text s).2.length > 0 then cs ++ [(chunkScan text s).2] else cs) := by
  unfold chunkStep
  rcases hscan : chunkScan text s with ⟨e, c⟩
  simp only [hscan]
  split <;> split <;> rfl

theorem chunkStep_fst_eq (text : List Char) (s : Int) (cs : List (List Char)) :
    (chunkStep text s cs).1 =
      (if (chunkScan text s).1 - (chunkOverlap : Int) ≤
          (match (if (chunkScan text s).2.length > 0 then
              cs ++ [(chunkScan text s).2] else cs).getLast? with
            | some lastChunk => indexOfSub text lastChunk
            | none => 0) then
        (chunkScan text s).1
      else (chunkScan text s).1 - (chunkOverlap : Int)) := by
  unfold chunkStep
  rcases hscan : chunkScan text s with ⟨e, c⟩
  simp only [hscan]
  split <;> split <;> rfl

theorem chunkStep_spec (text : List Char) (s : Int) (cs : List (List Char)) (hs : 0 ≤ s) :
    ∃ s' cs', chunkStep text s cs = (s', cs') ∧ 0 ≤ s' ∧
      ∀ c ∈ cs', c ∈ cs ∨ ((c.length : Nat) : Int) ≤ (chunkSize : Int) + 1 := by
  have hck := chunkScan_chunk_le text s hs
  refine ⟨(chunkStep text s cs).1, (chunkStep text s cs).2, rfl, ?_, ?_⟩
  · obtain ⟨hlt, _⟩ := chunkScan_fst_bounds text s hs
    rw [chunkStep_fst_eq, ← chunkStep_snd_eq]
    have hge : -1 ≤ (match (chunkStep text s cs).2.getLast? with
        | some lastChunk => indexOfSub text lastChunk
        | none => 0) := by
      split
      · exact indexOfSub_ge _ _
      · omega
    split
    · omega
    · rename_i hguard
      push_neg at hguard
      omega
  · intro c hc
    rw [chunkStep_snd_eq] at hc
    split at hc
    · rcases List.mem_append.mp hc with h | h
      · exact Or.inl h
      · right
        rw [List.mem_singleton.mp h]
        exact hck
    · exact Or.inl hc

theorem chunkLoop_chunk_bound (text : List Char) :
    ∀ (fuel : Nat) (s : Int) (cs out : List (List Char)), 0 ≤ s →
      (∀ c ∈ cs, ((c.length : Nat) : Int) ≤ (chunkSize : Int) + 1) →
      chunkLoop text fuel s cs = some out →
      ∀ c ∈ out, ((c.length : Nat) : Int) ≤ (chunkSize : Int) + 1 := by
  intro fuel
  induction fuel with
  | zero =>
    intro s cs out hs hcs hloop
    rw [chunkLoop] at hloop
    split at hloop
    · cases hloop
    · injection hloop with h
      subst h
      exact hcs
  | succ n ih =>
    intro s cs out hs hcs hloop
    rw [chunkLoop] at hloop
    split at hloop
    · obtain ⟨s', cs', heq, hs', hmem⟩ := chunkStep_spec text s cs hs
      rw [heq] at hloop
      exact ih s' cs' out hs'
        (fun c hc => (hmem c hc).elim (fun h => hcs c h) id) hloop
    · injection hloop with h
      subst h
      exact hcs

theorem chunkStep_of_scan (text : List Char) (s : Int) (cs : List (List Char))
    (e : Int) (c : List Char) (h : chunkScan text s = (e, c)) (hc : c ≠ []) :
    chunkStep text s cs =
      (if e - (chunkOverlap : Int) ≤ indexOfSub text c then e else e - (chunkOverlap : Int),
        cs ++ [c]) := by
  have hlen : c.length > 0 := List.length_pos.mpr hc
  have h1 : (chunkScan text s).1 = e := by rw [h]
  have h2 : (chunkScan text s).2 = c := by rw [h]
  have hsnd : (chunkStep text s cs).2 = cs ++ [c] := by
    rw [chunkStep_snd_eq, h2, if_pos hlen]
  have hfst : (chunkStep text s cs).1 =
      (if e - (chunkOverlap : Int) ≤ indexOfSub text c then e else e - (chunkOverlap : Int)) := by
    rw [chunkStep_fst_eq, h1, h2, if_pos hlen, List.getLast?_concat]
  calc chunkStep text s cs = ((chunkStep text s cs).1, (chunkStep text s cs).2) := rfl
    _ = _ := by rw [hfst, hsnd]

/-! ### Symbolic evaluation toolkit for the concrete chunker inputs
(the 1000+-character inputs are far too deep for kernel evaluation, so every
fact about them is derived from structural lemmas about `List.replicate` and
`++` instead). -/

theorem dropWhile_eq_self_of_head (p : Char → Bool) (l : List Char)
    (h : ∀ c, l.head? = some c → p c = false) : l.dropWhile p = l := by
  cases l with
  | nil => rfl
  | cons x xs => simp [List.dropWhile_cons, h x rfl]

theorem jsTrim_eq_self (l : List Char)
    (hh : ∀ c, l.head? = some c → jsWhitespace c = false)
    (hl : ∀ c, l.getLast? = some c → jsWhitespace c = false) : jsTrim l = l := by
  unfold jsTrim
  rw [dropWhile_eq_self_of_head _ _ hh]
  rw [dropWhile_eq_self_of_head _ _ (fun c hc => hl c (by rwa [List.head?_reverse] at hc))]
  exact List.reverse_reverse l

theorem jsTrim_eq_self_of_ends (l : List Char) (x y : Char)
    (hx : l.head? = some x) (hy : l.getLast? = some y)
    (hwx : jsWhitespace x = false) (hwy : jsWhitespace y = false) : jsTrim l = l :=
  jsTrim_eq_self l (fun c hc => by rw [hx] at hc; cases hc; exact hwx)
    (fun c hc => by rw [hy] at hc; cases hc; exact hwy)

theorem head?_replicate_append (x : Char) (n : Nat) (m : List Char) (h : n ≠ 0) :
    (List.replicate n x ++ m).head? = some x := by
  cases n with
  | zero => exact absurd rfl h
  | succ k => simp [List.replicate_succ]

theorem head?_replicate (x : Char) (n : Nat) (h : n ≠ 0) :
    (List.replicate n x).head? = some x := by
  cases n with
  | zero => exact absurd rfl h
  | succ k => simp [List.replicate_succ]

theorem getLast?_some_append {α : Type} (l1 l2 : List α) (y : α) (h : l2.getLast? = some y) :
    (l1 ++ l2).getLast? = some y := by
  rw [List.getLast?_append, h]
  rfl

theorem getLast?_replicate (x : Char) (n : Nat) (h : n ≠ 0) :
    (List.replicate n x).getLast? = some x := by
  cases n with
  | zero => exact absurd rfl h
  | succ k => rw [List.replicate_succ', List.getLast?_concat]

theorem getLast?_cons_of_getLast? {α : Type} (x y : α) (l : List α) (h : l.getLast? = some y) :
    (x :: l).getLast? = some y := by
  rw [← List.singleton_append]
  exact getLast?_some_append _ _ _ h

theorem collapseWSAux_replicate_append (x : Char) (hx : jsWhitespace x = false) :
    ∀ (n : Nat) (m : List Char) (b : Bool), n ≠ 0 →
      collapseWSAux b (List.replicate n x ++ m) = List.replicate n x ++ collapseWSAux false m := by
  intro n
  induction n with
  | zero => intro m b h; exact absurd rfl h
  | succ k ih =>
    intro m b _
    rw [List.replicate_succ, List.cons_append]
    have hstep : collapseWSAux b (x :: (List.replicate k x ++ m)) =
        x :: collapseWSAux false (List.replicate k x ++ m) := by
      rw [collapseWSAux, hx]
      simp
    rw [hstep]
    by_cases hk : k = 0
    · subst hk
      simp
    · rw [ih m false hk]
      simp [List.replicate_succ]

theorem collapseWSAux_replicate (x : Char) (hx : jsWhitespace x = false) (n : Nat) (b : Bool)
    (h : n ≠ 0) : collapseWSAux b (List.replicate n x) = List.replicate n x := by
  have hthis := collapseWSAux_replicate_append x hx n [] b h
  rw [List.append_nil, show collapseWSAux false [] = [] from rfl, List.append_nil] at hthis
  exact hthis

theorem collapseWSAux_false_space (m : List Char) :
    collapseWSAux false (' ' :: m) = ' ' :: collapseWSAux true m := rfl

theorem take_append_replicate (x : Char) (n k : Nat) (m : List Char) :
    (List.replicate n x ++ m).take (n + k) = List.replicate n x ++ m.take k := by
  induction n with
  | zero => simp
  | succ j ih =>
    rw [show j + 1 + k = (j + k) + 1 from by omega, List.replicate_succ, List.cons_append,
      List.take_succ_cons, ih, List.cons_append]

theorem take_len_replicate_append (x : Char) (n : Nat) (m : List Char) :
    (List.replicate n x ++ m).take n = List.replicate n x := by
  induction n with
  | zero => simp
  | succ j ih =>
    rw [List.replicate_succ, List.cons_append, List.take_succ_cons, ih]

theorem drop_len_replicate_append (x : Char) (n : Nat) (m : List Char) :
    (List.replicate n x ++ m).drop n = m := by
  induction n with
  | zero => simp
  | succ j ih =>
    rw [List.replicate_succ, List.cons_append, List.drop_succ_cons, ih]

theorem drop_append_replicate (x : Char) (n k : Nat) (m : List Char) :
    (List.replicate n x ++ m).drop (n + k) = m.drop k := by
  induction n with
  | zero => simp
  | succ j ih =>
    rw [show j + 1 + k = (j + k) + 1 from by omega, List.replicate_succ, List.cons_append,
      List.drop_succ_cons, ih]

theorem lastIndexOfFrom_go_not_mem (c : Char) (f : Int) :
    ∀ (l : List Char) (i : Nat) (best : Int), c ∉ l →
      lastIndexOfFrom.go c f l i best = best := by
  intro l
  induction l with
  | nil => intro i best _; rfl
  | cons x xs ih =>
    intro i best h
    rw [lastIndexOfFrom.go]
    have hx : ¬(x = c) := by
      intro he
      subst he
      exact h (List.mem_cons_self x xs)
    rw [if_neg (by simp [hx])]
    exact ih (i + 1) best (fun hm => h (List.mem_cons_of_mem x hm))

theorem lastIndexOfFrom_go_append (c : Char) (f : Int) (l1 : List Char) :
    ∀ (l2 : List Char) (i : Nat) (best : Int),
      lastIndexOfFrom.go c f (l1 ++ l2) i best =
        lastIndexOfFrom.go c f l2 (i + l1.length) (lastIndexOfFrom.go c f l1 i best) := by
  induction l1 with
  | nil => intro l2 i best; simp [lastIndexOfFrom.go]
  | cons x xs ih =>
    intro l2 i best
    rw [List.cons_append, lastIndexOfFrom.go, ih, lastIndexOfFrom.go]
    have harith : i + 1 + xs.length = i + (x :: xs).length := by
      simp [List.length_cons]
      omega
    rw [harith]

theorem lastIndexOfFrom_go_cons_hit (c : Char) (f : Int) (xs : List Char) (i : Nat) (best : Int)
    (hif : (i : Int) ≤ f) :
    lastIndexOfFrom.go c f (c :: xs) i best = lastIndexOfFrom.go c f xs (i + 1) i := by
  rw [lastIndexOfFrom.go, if_pos (by simp [hif])]

theorem lastIndexOfFrom_not_mem (s : List Char) (c : Char) (f : Int) (h : c ∉ s) :
    lastIndexOfFrom s c f = -1 := by
  unfold lastIndexOfFrom
  exact lastIndexOfFrom_go_not_mem c f s 0 (-1) h

theorem indexOfSub_zero_of_prefix (s sub : List Char) (h : sub <+: s) : indexOfSub s sub = 0 := by
  unfold indexOfSub
  cases s with
  | nil =>
    have hsub : sub = [] := List.prefix_nil.mp h
    subst hsub
    rfl
  | cons x xs =>
    rw [indexOfSub.go, if_pos (List.isPrefixOf_iff_prefix.mpr h)]
    norm_num

/-! ### Concrete facts about the two chunker inputs -/

theorem repeated_length : repeatedChunkText.length = 1402 := by
  unfold repeatedChunkText
  simp only [List.length_append, List.length_cons, List.length_replicate]

theorem overlong_length : overlongChunkText.length = 1002 := by
  unfold overlongChunkText
  simp only [List.length_append, List.length_cons, List.length_replicate, List.length_nil]

theorem space_not_mem_a_run (n : Nat) : ' ' ∉ List.replicate n 'a' := by
  intro h
  exact absurd (List.eq_of_mem_replicate h) (by decide)

theorem space_not_mem_b_run (n : Nat) : ' ' ∉ List.replicate n 'b' := by
  intro h
  exact absurd (List.eq_of_mem_replicate h) (by decide)

theorem sentence_not_mem_repeated (c : Char) (hca : c ≠ 'a') (hcs : c ≠ ' ') (hcb : c ≠ 'b') :
    c ∉ repeatedChunkText := by
  intro h
  unfold repeatedChunkText at h
  rcases List.mem_append.mp h with h1 | h1
  · exact hca (List.eq_of_mem_replicate h1)
  · rcases List.mem_cons.mp h1 with h2 | h2
    · exact hcs h2
    · rcases List.mem_append.mp h2 with h3 | h3
      · exact hca (List.eq_of_mem_replicate h3)
      · rcases List.mem_cons.mp h3 with h4 | h4
        · exact hcs h4
        · exact hcb (List.eq_of_mem_replicate h4)

theorem not_mem_overlong (c : Char) (hca : c ≠ 'a') (hcd : c ≠ '.') (hcb : c ≠ 'b') :
    c ∉ overlongChunkText := by
  intro h
  unfold overlongChunkText at h
  rcases List.mem_append.mp h with h1 | h1
  · exact hca (List.eq_of_mem_replicate h1)
  · rcases List.mem_cons.mp h1 with h2 | h2
    · exact hcd h2
    · rcases List.mem_cons.mp h2 with h3 | h3
      · exact hcb h3
      · simp at h3

theorem lastIndexOfFrom_repeated_space (f : Int) (hf : (401 : Int) ≤ f) :
    lastIndexOfFrom repeatedChunkText ' ' f = 401 := by
  unfold lastIndexOfFrom repeatedChunkText
  rw [lastIndexOfFrom_go_append ' ' f (List.replicate 200 'a'),
    lastIndexOfFrom_go_not_mem ' ' f (List.replicate 200 'a') 0 (-1) (space_not_mem_a_run 200),
    List.length_replicate]
  rw [show (0 : Nat) + 200 = 200 from rfl]
  rw [lastIndexOfFrom_go_cons_hit ' ' f _ 200 (-1) (by omega)]
  rw [lastIndexOfFrom_go_append ' ' f (List.replicate 200 'a'),
    lastIndexOfFrom_go_not_mem ' ' f (List.replicate 200 'a') 201 ((200 : Nat) : Int)
      (space_not_mem_a_run 200),
    List.length_replicate]
  rw [show (200 : Nat) + 1 + 200 = 401 from rfl]
  rw [lastIndexOfFrom_go_cons_hit ' ' f _ 401 ((200 : Nat) : Int) (by omega)]
  rw [lastIndexOfFrom_go_not_mem ' ' f (List.replicate 1000 'b') 402 ((401 : Nat) : Int)
    (space_not_mem_b_run 1000)]
  norm_num

theorem lastIndexOfFrom_overlong_dot (f : Int) (hf : (1000 : Int) ≤ f) :
    lastIndexOfFrom overlongChunkText '.' f = 1000 := by
  unfold lastIndexOfFrom overlongChunkText
  rw [lastIndexOfFrom_go_append '.' f (List.replicate 1000 'a'),
    lastIndexOfFrom_go_not_mem '.' f (List.replicate 1000 'a') 0 (-1) (by
      intro h
      exact absurd (List.eq_of_mem_replicate h) (by decide)),
    List.length_replicate]
  rw [show (0 : Nat) + 1000 = 1000 from rfl]
  rw [lastIndexOfFrom_go_cons_hit '.' f _ 1000 (-1) (by omega)]
  rw [lastIndexOfFrom_go_not_mem '.' f ['b'] 1001 ((1000 : Nat) : Int) (by
    intro h
    rcases List.mem_cons.mp h with h1 | h1
    · exact absurd h1 (by decide)
    · simp at h1)]
  norm_num

theorem normalizeWS_repeated_eval : normalizeWS repeatedChunkText = repeatedChunkText := by
  unfold normalizeWS
  have hc : collapseWSAux false repeatedChunkText = repeatedChunkText := by
    unfold repeatedChunkText
    rw [collapseWSAux_replicate_append 'a' (by decide) 200 _ false (by decide)]
    rw [collapseWSAux_false_space]
    rw [collapseWSAux_replicate_append 'a' (by decide) 200 _ true (by decide)]
    rw [collapseWSAux_false_space]
    rw [collapseWSAux_replicate 'b' (by decide) 1000 true (by decide)]
  rw [hc]
  unfold repeatedChunkText
  exact jsTrim_eq_self_of_ends _ 'a' 'b'
    (head?_replicate_append _ _ _ (by decide))
    (getLast?_some_append _ _ _ (getLast?_cons_of_getLast? _ _ _
      (getLast?_some_append _ _ _ (getLast?_cons_of_getLast? _ _ _
        (getLast?_replicate 'b' 1000 (by decide))))))
    (by decide) (by decide)

theorem normalizeWS_overlong_eval : normalizeWS overlongChunkText = overlongChunkText := by
  unfold normalizeWS
  have hc : collapseWSAux false overlongChunkText = overlongChunkText := by
    unfold overlongChunkText
    rw [collapseWSAux_replicate_append 'a' (by decide) 1000 _ false (by decide)]
    rw [show collapseWSAux false ['.', 'b'] = ['.', 'b'] from rfl]
  rw [hc]
  unfold overlongChunkText
  exact jsTrim_eq_self_of_ends _ 'a' 'b'
    (head?_replicate_append _ _ _ (by decide))
    (getLast?_some_append _ _ _ (by rfl))
    (by decide) (by decide)

theorem repeated_length_gt : ¬(repeatedChunkText.length ≤ chunkSize) := by
  rw [repeated_length]
  simp [chunkSize]

theorem repeated_length_gt0 : (0 : Int) < (repeatedChunkText.length : Int) := by
  rw [repeated_length]
  norm_num

theorem repeated_length_gt201 : (201 : Int) < (repeatedChunkText.length : Int) := by
  rw [repeated_length]
  norm_num

theorem overlong_length_gt : ¬(overlongChunkText.length ≤ chunkSize) := by
  rw [overlong_length]
  simp [chunkSize]

theorem overlong_length_gt0 : (0 : Int) < (overlongChunkText.length : Int) := by
  rw [overlong_length]
  norm_num

theorem overlong_length_gt801 : (801 : Int) < (overlongChunkText.length : Int) := by
  rw [overlong_length]
  norm_num

theorem overlong_length_not_gt1601 : ¬((1601 : Int) < (overlongChunkText.length : Int)) := by
  rw [overlong_length]
  norm_num

theorem overlong_length_int : ((overlongChunkText.length : Nat) : Int) = 1002 := by
  rw [overlong_length]
  norm_num

theorem overlongFirstChunk_length : overlongFirstChunk.length = 1001 := by
  unfold overlongFirstChunk
  simp only [List.length_append, List.length_cons, List.length_replicate, List.length_nil]

theorem indexOfSub_repeated_first : indexOfSub repeatedChunkText firstRepeatedChunk = 0 := by
  apply indexOfSub_zero_of_prefix
  refine ⟨' ' :: List.replicate 1000 'b', ?_⟩
  unfold repeatedChunkText firstRepeatedChunk
  rw [List.append_assoc, List.cons_append]

theorem indexOfSub_repeated_stuck : indexOfSub repeatedChunkText stuckChunk = 0 := by
  apply indexOfSub_zero_of_prefix
  exact ⟨' ' :: (List.replicate 200 'a' ++ ' ' :: List.replicate 1000 'b'), rfl⟩

theorem indexOfSub_overlong_first : indexOfSub overlongChunkText overlongFirstChunk = 0 := by
  apply indexOfSub_zero_of_prefix
  refine ⟨['b'], ?_⟩
  unfold overlongChunkText overlongFirstChunk
  rw [List.append_assoc]
  rfl

theorem firstRepeatedChunk_ne_nil : firstRepeatedChunk ≠ [] := by
  intro h
  have h2 := congrArg List.length h
  simp only [firstRepeatedChunk, List.length_append, List.length_cons, List.length_replicate,
    List.length_nil] at h2
  omega

theorem stuckChunk_ne_nil : stuckChunk ≠ [] := by
  intro h
  have h2 := congrArg List.length h
  simp only [stuckChunk, List.length_replicate, List.length_nil] at h2
  omega

theorem overlongFirstChunk_ne_nil : overlongFirstChunk ≠ [] := by
  intro h
  have h2 := congrArg List.length h
  simp only [overlongFirstChunk, List.length_append, List.length_cons, List.length_replicate,
    List.length_nil] at h2
  omega

theorem overlongSecondChunk_ne_nil : overlongSecondChunk ≠ [] := by
  intro h
  have h2 := congrArg List.length h
  simp only [overlongSecondChunk, List.length_append, List.length_cons, List.length_replicate,
    List.length_nil] at h2
  omega

theorem take_repeated_401 : repeatedChunkText.take 401 = firstRepeatedChunk := by
  unfold repeatedChunkText firstRepeatedChunk
  rw [show (401 : Nat) = 200 + 201 from rfl, take_append_replicate]
  rw [show (201 : Nat) = 200 + 1 from rfl, List.take_succ_cons, take_len_replicate_append]

theorem drop_repeated_201 :
    repeatedChunkText.drop 201 = List.replicate 200 'a' ++ ' ' :: List.replicate 1000 'b' := by
  unfold repeatedChunkText
  rw [show (201 : Nat) = 200 + 1 from rfl, drop_append_replicate, List.drop_succ_cons,
    List.drop_zero]

theorem take_repeated_tail_200 :
    (List.replicate 200 'a' ++ ' ' :: List.replicate 1000 'b').take 200 =
      List.replicate 200 'a' := take_len_replicate_append _ _ _

theorem take_overlong_1001 : overlongChunkText.take 1001 = overlongFirstChunk := by
  unfold overlongChunkText overlongFirstChunk
  rw [show (1001 : Nat) = 1000 + 1 from rfl, take_append_replicate, List.take_succ_cons,
    List.take_zero]

theorem drop_overlong_801 :
    overlongChunkText.drop 801 = List.replicate 199 'a' ++ ['.', 'b'] := by
  unfold overlongChunkText
  rw [show (1000 : Nat) = 801 + 199 from rfl, List.replicate_add, List.append_assoc,
    drop_len_replicate_append]

theorem take_overlong_tail_201 :
    (List.replicate 199 'a' ++ ['.', 'b']).take 201 = overlongSecondChunk := by
  unfold overlongSecondChunk
  rw [show (201 : Nat) = 199 + 2 from rfl, take_append_replicate]
  rfl

theorem jsTrim_firstRepeatedChunk : jsTrim firstRepeatedChunk = firstRepeatedChunk := by
  unfold firstRepeatedChunk
  exact jsTrim_eq_self_of_ends _ 'a' 'a'
    (head?_replicate_append _ _ _ (by decide))
    (getLast?_some_append _ _ _ (getLast?_cons_of_getLast? _ _ _
      (getLast?_replicate 'a' 200 (by decide))))
    (by decide) (by decide)

theorem jsTrim_stuckChunk : jsTrim stuckChunk = stuckChunk := by
  unfold stuckChunk
  exact jsTrim_eq_self_of_ends _ 'a' 'a'
    (head?_replicate 'a' 200 (by decide))
    (getLast?_replicate 'a' 200 (by decide))
    (by decide) (by decide)

theorem jsTrim_overlongFirstChunk : jsTrim overlongFirstChunk = overlongFirstChunk := by
  unfold overlongFirstChunk
  exact jsTrim_eq_self_of_ends _ 'a' '.'
    (head?_replicate_append _ _ _ (by decide))
    (getLast?_some_append _ _ _ (by rfl))
    (by decide) (by decide)

theorem jsTrim_overlongSecondChunk : jsTrim overlongSecondChunk = overlongSecondChunk := by
  unfold overlongSecondChunk
  exact jsTrim_eq_self_of_ends _ 'a' 'b'
    (head?_replicate_append _ _ _ (by decide))
    (getLast?_some_append _ _ _ (by rfl))
    (by decide) (by decide)

theorem jsSubstring_eq (s : List Char) (a b : Int) :
    jsSubstring s a b =
      (s.drop (min ((min (max a 0) (s.length : Int)).toNat)
          ((min (max b 0) (s.length : Int)).toNat))).take
        (max ((min (max a 0) (s.length : Int)).toNat)
            ((min (max b 0) (s.length : Int)).toNat) -
          min ((min (max a 0) (s.length : Int)).toNat)
            ((min (max b 0) (s.length : Int)).toNat)) := rfl

theorem jsSubstring_repeated_0_401 :
    jsSubstring repeatedChunkText 0 401 = firstRepeatedChunk := by
  rw [jsSubstring_eq, repeated_length]
  norm_num [Int.toNat_ofNat]
  exact take_repeated_401

theorem jsSubstring_repeated_201_401 :
    jsSubstring repeatedChunkText 201 401 = stuckChunk := by
  rw [jsSubstring_eq, repeated_length]
  norm_num [Int.toNat_ofNat]
  rw [show Int.toNat 401 = 401 from rfl, show Int.toNat 201 = 201 from rfl,
    show (401 : Nat) - 201 = 200 from rfl]
  rw [drop_repeated_201]
  exact take_repeated_tail_200

theorem jsSubstring_overlong_0_1001 :
    jsSubstring overlongChunkText 0 1001 = overlongFirstChunk := by
  rw [jsSubstring_eq, overlong_length]
  norm_num [Int.toNat_ofNat]
  exact take_overlong_1001

theorem jsSubstring_overlong_801_1801 :
    jsSubstring overlongChunkText 801 1801 = overlongSecondChunk := by
  rw [jsSubstring_eq, overlong_length]
  norm_num [Int.toNat_ofNat]
  rw [show Int.toNat 1002 = 1002 from rfl, show Int.toNat 801 = 801 from rfl,
    show (1002 : Nat) - 801 = 201 from rfl]
  rw [drop_overlong_801]
  exact take_overlong_tail_201

theorem chunkScan_repeated_zero : chunkScan repeatedChunkText 0 = (401, firstRepeatedChunk) := by
  have hfst : (chunkScan repeatedChunkText 0).1 = 401 := by
    rw [chunkScan_fst_eq]
    rw [if_pos (by rw [repeated_length]; simp [chunkSize])]
    rw [lastIndexOfFrom_not_mem _ _ _ (sentence_not_mem_repeated '.' (by decide) (by decide) (by decide))]
    rw [lastIndexOfFrom_not_mem _ _ _ (sentence_not_mem_repeated '!' (by decide) (by decide) (by decide))]
    rw [lastIndexOfFrom_not_mem _ _ _ (sentence_not_mem_repeated '?' (by decide) (by decide) (by decide))]
    rw [if_neg (by simp [chunkSize])]
    rw [lastIndexOfFrom_repeated_space _ (by simp [chunkSize])]
    rw [if_pos (by norm_num)]
  have hsnd : (chunkScan repeatedChunkText 0).2 = firstRepeatedChunk := by
    rw [chunkScan_snd_eq, hfst, jsSubstring_repeated_0_401, jsTrim_firstRepeatedChunk]
  calc chunkScan repeatedChunkText 0
      = ((chunkScan repeatedChunkText 0).1, (chunkScan repeatedChunkText 0).2) := Prod.mk.eta.symm
    _ = (401, firstRepeatedChunk) := by rw [hfst, hsnd]

theorem chunkScan_repeated_201 : chunkScan repeatedChunkText 201 = (401, stuckChunk) := by
  have hfst : (chunkScan repeatedChunkText 201).1 = 401 := by
    rw [chunkScan_fst_eq]
    rw [if_pos (by rw [repeated_length]; simp [chunkSize])]
    rw [lastIndexOfFrom_not_mem _ _ _ (sentence_not_mem_repeated '.' (by decide) (by decide) (by decide))]
    rw [lastIndexOfFrom_not_mem _ _ _ (sentence_not_mem_repeated '!' (by decide) (by decide) (by decide))]
    rw [lastIndexOfFrom_not_mem _ _ _ (sentence_not_mem_repeated '?' (by decide) (by decide) (by decide))]
    rw [if_neg (by simp [chunkSize])]
    rw [lastIndexOfFrom_repeated_space _ (by simp [chunkSize])]
    rw [if_pos (by norm_num)]
  have hsnd : (chunkScan repeatedChunkText 201).2 = stuckChunk := by
    rw [chunkScan_snd_eq, hfst, jsSubstring_repeated_201_401, jsTrim_stuckChunk]
  calc chunkScan repeatedChunkText 201
      = ((chunkScan repeatedChunkText 201).1, (chunkScan repeatedChunkText 201).2) := Prod.mk.eta.symm
    _ = (401, stuckChunk) := by rw [hfst, hsnd]

theorem chunkScan_overlong_zero :
    chunkScan overlongChunkText 0 = (1001, overlongFirstChunk) := by
  have hfst : (chunkScan overlongChunkText 0).1 = 1001 := by
    rw [chunkScan_fst_eq]
    rw [if_pos (by rw [overlong_length]; simp [chunkSize])]
    rw [lastIndexOfFrom_overlong_dot _ (by simp [chunkSize])]
    rw [lastIndexOfFrom_not_mem _ _ _ (not_mem_overlong '!' (by decide) (by decide) (by decide))]
    rw [lastIndexOfFrom_not_mem _ _ _ (not_mem_overlong '?' (by decide) (by decide) (by decide))]
    rw [if_pos (by simp [chunkSize])]
    norm_num
  have hsnd : (chunkScan overlongChunkText 0).2 = overlongFirstChunk := by
    rw [chunkScan_snd_eq, hfst, jsSubstring_overlong_0_1001, jsTrim_overlongFirstChunk]
  calc chunkScan overlongChunkText 0
      = ((chunkScan overlongChunkText 0).1, (chunkScan overlongChunkText 0).2) := Prod.mk.eta.symm
    _ = (1001, overlongFirstChunk) := by rw [hfst, hsnd]

theorem chunkScan_overlong_801 :
    chunkScan overlongChunkText 801 = (1801, overlongSecondChunk) := by
  have hfst : (chunkScan overlongChunkText 801).1 = 1801 := by
    rw [chunkScan_fst_eq]
    rw [if_neg (by rw [overlong_length]; simp [chunkSize])]
    simp [chunkSize]
  have hsnd : (chunkScan overlongChunkText 801).2 = overlongSecondChunk := by
    rw [chunkScan_snd_eq, hfst, jsSubstring_overlong_801_1801, jsTrim_overlongSecondChunk]
  calc chunkScan overlongChunkText 801
      = ((chunkScan overlongChunkText 801).1, (chunkScan overlongChunkText 801).2) := Prod.mk.eta.symm
    _ = (1801, overlongSecondChunk) := by rw [hfst, hsnd]

/-- Evaluation of the chunker on `overlongChunkText`: it terminates with two
chunks, the first of length 1001. -/
theorem chunkText_overlong_eval :
    chunkText 10 overlongChunkText = some [overlongFirstChunk, overlongSecondChunk] := by
  unfold chunkText
  rw [normalizeWS_overlong_eval]
  rw [if_neg overlong_length_gt]
  rw [show (10 : Nat) = 9 + 1 from rfl]
  rw [chunkLoop, if_pos overlong_length_gt0]
  rw [chunkStep_of_scan overlongChunkText 0 [] 1001 overlongFirstChunk chunkScan_overlong_zero
    overlongFirstChunk_ne_nil]
  rw [indexOfSub_overlong_first]
  rw [if_neg (by norm_num [chunkOverlap])]
  norm_num [chunkOverlap]
  rw [show (9 : Nat) = 8 + 1 from rfl]
  rw [chunkLoop, if_pos overlong_length_gt801]
  rw [chunkStep_of_scan overlongChunkText 801 [overlongFirstChunk] 1801 overlongSecondChunk
    chunkScan_overlong_801 overlongSecondChunk_ne_nil]
  rw [if_neg (by
    have h1 := indexOfSub_le overlongChunkText overlongSecondChunk
    rw [overlong_length_int] at h1
    simp only [chunkOverlap]
    omega)]
  norm_num [chunkOverlap]
  rw [show (8 : Nat) = 7 + 1 from rfl]
  rw [chunkLoop, if_neg overlong_length_not_gt1601]

/-- C2 (code bug): `chunkText` can stall forever.  On `repeatedChunkText`
(200 `a`s, a space, 200 `a`s, a space, 1000 `b`s) the loop reaches start
index 201, re-emits the 200-`a` chunk, and — because that chunk's text also
occurs at position 0, where the `indexOf`-based progress guard looks it up —
resets the start index back to 201 on every iteration: the start index never
advances again and the loop never terminates, no matter the fuel. -/
theorem chunkText_stalls_on_repeated_chunk :
    (∀ cs, chunkStep repeatedChunkText 201 cs = (201, cs ++ [stuckChunk])) ∧
    (∀ fuel, chunkText fuel repeatedChunkText = none) := by
  have hstuck : ∀ cs, chunkStep repeatedChunkText 201 cs = (201, cs ++ [stuckChunk]) := by
    intro cs
    rw [chunkStep_of_scan repeatedChunkText 201 cs 401 stuckChunk chunkScan_repeated_201
      stuckChunk_ne_nil]
    rw [indexOfSub_repeated_stuck]
    norm_num [chunkOverlap]
  have hloop : ∀ fuel cs, chunkLoop repeatedChunkText fuel 201 cs = none := by
    intro fuel
    induction fuel with
    | zero => intro cs; rw [chunkLoop, if_pos repeated_length_gt201]
    | succ n ih =>
      intro cs
      rw [chunkLoop, if_pos repeated_length_gt201, hstuck cs]
      exact ih (cs ++ [stuckChunk])
  refine ⟨hstuck, ?_⟩
  intro fuel
  unfold chunkText
  rw [normalizeWS_repeated_eval]
  rw [if_neg repeated_length_gt]
  cases fuel with
  | zero => rw [chunkLoop, if_pos repeated_length_gt0]
  | succ n =>
    rw [chunkLoop, if_pos repeated_length_gt0]
    rw [chunkStep_of_scan repeatedChunkText 0 [] 401 firstRepeatedChunk chunkScan_repeated_zero
      firstRepeatedChunk_ne_nil]
    rw [indexOfSub_repeated_first]
    rw [if_neg (by norm_num [chunkOverlap])]
    norm_num [chunkOverlap]
    exact hloop n [firstRepeatedChunk]

/-- C5 (counterexample): chunks are NOT always bounded by the chunk size.
On `overlongChunkText` (whose normalized length 1002 exceeds one chunk) the
sentence-boundary branch includes the terminator sitting exactly at index
1000, producing a first chunk of length 1001 > 1000. -/
theorem chunkText_chunkSize_counterexample :
    ¬ (∀ (text : List Char) (fuel : Nat) (cs : List (List Char)),
        chunkText fuel text = some cs → chunkSize < (normalizeWS text).length →
        ∀ c ∈ cs, c.length ≤ chunkSize) := by
  intro h
  have hb := h overlongChunkText 10 [overlongFirstChunk, overlongSecondChunk]
    chunkText_overlong_eval
    (by rw [normalizeWS_overlong_eval, overlong_length]; simp [chunkSize])
    overlongFirstChunk (by simp)
  rw [overlongFirstChunk_length] at hb
  simp [chunkSize] at hb

/-- C5 (amended): every chunk `chunkText` returns has length at most
`chunkSize + 1` (the sentence-boundary branch may include a terminator at
index `startIndex + chunkSize`, one character past the chunk size; every
other branch stays within it); and when the whitespace-normalized text has
length ≤ `chunkSize`, the result is exactly the one-element sequence holding
the normalized text. -/
theorem chunkText_chunk_length_bound :
    (∀ (text : List Char) (fuel : Nat) (cs : List (List Char)),
        chunkText fuel text = some cs → ∀ c ∈ cs, c.length ≤ chunkSize + 1) ∧
    (∀ (text : List Char) (fuel : Nat), (normalizeWS text).length ≤ chunkSize →
        chunkText fuel text = some [normalizeWS text]) := by
  constructor
  · intro text fuel cs hres c hc
    unfold chunkText at hres
    by_cases hsmall : (normalizeWS text).length ≤ chunkSize
    · rw [if_pos hsmall] at hres
      injection hres with hres
      subst hres
      rw [List.mem_singleton.mp hc]
      omega
    · rw [if_neg hsmall] at hres
      have hb := chunkLoop_chunk_bound (normalizeWS text) fuel 0 [] cs (le_refl 0)
        (by simp) hres c hc
      omega
  · intro text fuel hsmall
    unfold chunkText
    rw [if_pos hsmall]

/-- C5 (witness): the bound applied to the concrete chunking of
`overlongChunkText`, and the single-chunk case on a short text. -/
theorem chunkText_chunk_length_bound_witness :
    (∀ c ∈ [overlongFirstChunk, overlongSecondChunk], c.length ≤ chunkSize + 1) ∧
    chunkText 3 "hello world".toList = some [normalizeWS "hello world".toList] := by
  constructor
  · exact chunkText_chunk_length_bound.1 overlongChunkText 10 _ chunkText_overlong_eval
  · exact chunkText_chunk_length_bound.2 "hello world".toList 3 (by decide)

end NlpCodeGen
